import Mathlib

/-!
# Peer Mesh Call Orchestrator — verification development

Shallow embedding of the `VideoCall` component (signaling handler,
local media controls, screen share, hang-up) of the chat/video
collaboration application. Peer connections live in `pcRef.current`
(an id-keyed table, embedded as an association list), local state in
React `useState` fields, and outbound signaling messages are recorded
in a trace. Calls into the platform (getUserMedia, setRemoteDescription,
addIceCandidate) are embedded with explicit success/failure oracles;
each peer connection records the transport operations invoked on it,
in order.
-/

set_option maxHeartbeats 1000000
set_option synthInstance.maxHeartbeats 400000

namespace VideoCallModel

/-- Kind of a local media track (the component acquires audio+video). -/
inductive TrackKind : Type
  | audio
  | video
deriving DecidableEq, Repr

/-- A media track handle: identity, kind, the mutable `enabled` bit, the
stopped flag, and an instrumentation counter of effective releases
(`MediaStreamTrack.stop` on an already stopped track is a platform no-op). -/
structure Track where
  tid : Nat
  kind : TrackKind
  enabled : Bool
  stopped : Bool
  stops : Nat
deriving DecidableEq, Repr

/-- `track.stop()`: a no-op when the track is already stopped, otherwise
the track ends and the release is counted. -/
def Track.stop (t : Track) : Track :=
  if t.stopped then t else { t with stopped := true, stops := t.stops + 1 }

/-- A media stream handle: identity plus its tracks. -/
structure Strm where
  sid : Nat
  tracks : List Track
deriving DecidableEq, Repr

/-- `stream.getTracks().forEach((t) => t.stop())`. -/
def Strm.stopAll (s : Strm) : Strm :=
  { s with tracks := s.tracks.map Track.stop }

/-- `stream.getAudioTracks().forEach((t) => (t.enabled = b))`. -/
def Strm.setAudioEnabled (b : Bool) (s : Strm) : Strm :=
  { s with tracks := s.tracks.map fun t =>
      if t.kind = TrackKind.audio then { t with enabled := b } else t }

/-- `stream.getVideoTracks().forEach((t) => (t.enabled = b))`. -/
def Strm.setVideoEnabled (b : Bool) (s : Strm) : Strm :=
  { s with tracks := s.tracks.map fun t =>
      if t.kind = TrackKind.video then { t with enabled := b } else t }

/-- A transport operation invoked on one `RTCPeerConnection`, recorded in
invocation order. `setLocal` stands for the createOffer/createAnswer +
setLocalDescription pair; `addCandidate` for `addIceCandidate`. -/
inductive PcOp : Type
  | addTrack (tid : Nat)
  | setLocal
  | setRemote
  | addCandidate (c : Nat)
  | close
deriving DecidableEq, Repr

/-- One peer connection object held in `pcRef.current`: creation identity
(`pcid`, so reuse vs. replacement is observable), the ordered transport
operation log, whether a remote description has been applied, the closed
flag, and an instrumentation counter of effective closes
(`RTCPeerConnection.close` on a closed connection is a platform no-op). -/
structure PC where
  pcid : Nat
  ops : List PcOp
  remoteDescSet : Bool
  closed : Bool
  closes : Nat
deriving DecidableEq, Repr

/-- `pc.close()`: a no-op on an already closed connection. -/
def PC.close (pc : PC) : PC :=
  if pc.closed then pc
  else
    { pc with
        closed := true
        closes := pc.closes + 1
        ops := pc.ops ++ [PcOp.close] }

/-- Inbound signaling message types handled by `handleSignal`
(`join`, `offer`, `answer`, `ice-candidate`, `user_left`). -/
inductive SigType : Type
  | join
  | offer
  | answer
  | ice
  | left
deriving DecidableEq, Repr

/-- An inbound signaling envelope, as destructured by `handleSignal`:
`from_user?.id`, `to_user`, `user_id` (only meaningful on `user_left`)
and the candidate payload (present iff the JS field is truthy). SDP
payloads are opaque and carried implicitly. -/
structure Signal where
  type : SigType
  fromUser : Option Nat
  toUser : Option Nat
  userId : Option Nat
  candidate : Option Nat
deriving DecidableEq, Repr

/-- An outbound signaling message recorded from `sendRef.current(...)` /
`send(...)` calls. -/
inductive OutMsg : Type
  | join
  | offerMsg (dest : Nat)
  | answerMsg (dest : Nat)
  | iceMsg (dest : Nat) (c : Nat)
deriving DecidableEq, Repr

/-- The component state: `pcRef.current` (association list keyed by peer
id), the `peers` render map (peer id, remote stream id when a track has
arrived), the React state fields, the `joinSentRef` flag, the socket
`connected` flag, the trace of sent messages, whether `onClose` has run,
and instrumentation counters (`loggedErrors` counts `console.error`
calls, `acquisitions` counts `getUserMedia` invocations, `nextPcId`
numbers `new RTCPeerConnection(...)` constructions). -/
structure CallState where
  pcs : List (Nat × PC)
  peers : List (Nat × Option Nat)
  localStream : Option Strm
  screenStream : Option Strm
  isMuted : Bool
  isVideoOff : Bool
  isScreenSharing : Bool
  joinSent : Bool
  connected : Bool
  sent : List OutMsg
  closed : Bool
  loggedErrors : Nat
  acquisitions : Nat
  nextPcId : Nat
deriving DecidableEq, Repr

/-- Initial state on mount. -/
def init : CallState :=
  { pcs := []
    peers := []
    localStream := none
    screenStream := none
    isMuted := false
    isVideoOff := false
    isScreenSharing := false
    joinSent := false
    connected := false
    sent := []
    closed := false
    loggedErrors := 0
    acquisitions := 0
    nextPcId := 0 }

/-- Media acquisition failure (`getUserMedia` / `getDisplayMedia` rejected). -/
inductive MediaErr : Type
  | denied
deriving DecidableEq, Repr

/-- `createPeerConnection(peerId, isInitiator)`: returns the existing
connection if one is cached in `pcRef.current`, otherwise constructs a
fresh one and stores it. The `isInitiator` argument is accepted and
ignored, exactly as in the source. -/
def createPeerConnection (s : CallState) (peerId : Nat) (_isInitiator : Bool) :
    CallState × PC :=
  match s.pcs.lookup peerId with
  | some pc => (s, pc)
  | none =>
    let pc : PC :=
      { pcid := s.nextPcId, ops := [], remoteDescSet := false,
        closed := false, closes := 0 }
    ({ s with pcs := s.pcs ++ [(peerId, pc)], nextPcId := s.nextPcId + 1 }, pc)

/-- Write back the (mutated) connection object stored under `peerId`. -/
def setPc (s : CallState) (peerId : Nat) (pc : PC) : CallState :=
  { s with pcs := s.pcs.map fun kv => if kv.1 = peerId then (peerId, pc) else kv }

/-- Whether the connection already holds a sender for this track: the
program never calls `removeTrack`, so the senders are exactly the tracks
added so far. -/
def PC.hasSender (pc : PC) (tid : Nat) : Bool :=
  pc.ops.any fun op => op = PcOp.addTrack tid

/-- `stream.getTracks().forEach((t) => pc.addTrack(t, stream))` —
`RTCPeerConnection.addTrack` throws `InvalidAccessError` when a sender
for that track already exists on the connection; the throw escapes the
`forEach`, leaving the tracks added before the failure attached. -/
def addTracksLoop : List Track → PC → Except PC PC
  | [], pc => Except.ok pc
  | t :: rest, pc =>
    if pc.hasSender t.tid then Except.error pc
    else addTracksLoop rest { pc with ops := pc.ops ++ [PcOp.addTrack t.tid] }

/-- `const stream = localStream || (await getUserMedia(...));
if (!localStream) setLocalStream(stream);` — the oracle `mediaOk` decides
whether the device layer grants the request; `fresh` is the stream it
would deliver. On rejection the exception propagates with the state as
mutated so far. -/
def acquireIfNeeded (fresh : Strm) (mediaOk : Bool) (s : CallState) :
    Except CallState (CallState × Strm) :=
  match s.localStream with
  | some st => Except.ok (s, st)
  | none =>
    let s1 := { s with acquisitions := s.acquisitions + 1 }
    if mediaOk then Except.ok ({ s1 with localStream := some fresh }, fresh)
    else Except.error s1

/-- `handleSignal(data)`, translated branch by branch from the source.
`localId` is `user?.id`; the oracles `mediaOk` and `descOk` decide the
outcomes of `getUserMedia` and of the fallible transport applications
(`setRemoteDescription` / `addIceCandidate`), while `pc.addTrack` fails
deterministically on an already-attached track (`addTracksLoop`). An
`Except.error` result is
the unhandled rejection escaping the `async` handler, carrying the state
at the failure point (all mutations already performed remain visible).
The top guard embeds `if (!peerId || peerId === user?.id) return;`
(JS truthiness: an id of `0` is falsy and also returns). -/
def handleSignal (localId : Nat) (fresh : Strm) (mediaOk descOk : Bool)
    (s : CallState) (d : Signal) : Except CallState CallState :=
  match d.fromUser with
  | none => Except.ok s
  | some peerId =>
    if peerId = 0 ∨ peerId = localId then Except.ok s
    else
      match d.type with
      | SigType.join =>
        match acquireIfNeeded fresh mediaOk s with
        | Except.error s1 => Except.error s1
        | Except.ok (s1, stream) =>
          let cp := createPeerConnection s1 peerId true
          match addTracksLoop stream.tracks cp.2 with
          | Except.error pcPartial => Except.error (setPc cp.1 peerId pcPartial)
          | Except.ok pc1 =>
            let pc2 := { pc1 with ops := pc1.ops ++ [PcOp.setLocal] }
            let s2 := setPc cp.1 peerId pc2
            Except.ok { s2 with sent := s2.sent ++ [OutMsg.offerMsg peerId] }
      | SigType.offer =>
        if d.toUser = some localId then
          let cp := createPeerConnection s peerId false
          match acquireIfNeeded fresh mediaOk cp.1 with
          | Except.error s1 => Except.error s1
          | Except.ok (s1, stream) =>
            match addTracksLoop stream.tracks cp.2 with
            | Except.error pcPartial => Except.error (setPc s1 peerId pcPartial)
            | Except.ok pc1 =>
              if descOk then
                let pc2 :=
                  { pc1 with
                      remoteDescSet := true
                      ops := pc1.ops ++ [PcOp.setRemote, PcOp.setLocal] }
                let s2 := setPc s1 peerId pc2
                Except.ok { s2 with sent := s2.sent ++ [OutMsg.answerMsg peerId] }
              else Except.error (setPc s1 peerId pc1)
        else Except.ok s
      | SigType.answer =>
        if d.toUser = some localId then
          match s.pcs.lookup peerId with
          | some pc =>
            if descOk then
              Except.ok (setPc s peerId
                { pc with
                    remoteDescSet := true
                    ops := pc.ops ++ [PcOp.setRemote] })
            else Except.error s
          | none => Except.ok s
        else Except.ok s
      | SigType.ice =>
        match d.candidate with
        | some c =>
          if d.toUser = some localId then
            match s.pcs.lookup peerId with
            | some pc =>
              if descOk then
                Except.ok (setPc s peerId
                  { pc with ops := pc.ops ++ [PcOp.addCandidate c] })
              else Except.error s
            | none => Except.ok s
          else Except.ok s
        | none => Except.ok s
      | SigType.left =>
        match d.userId with
        | some pid =>
          let s1 :=
            match s.pcs.lookup pid with
            | some _ => { s with pcs := s.pcs.filter fun kv => kv.1 != pid }
            | none => s
          Except.ok { s1 with peers := s1.peers.filter fun kv => kv.1 != pid }
        | none => Except.ok s

/-- Collapse the two outcomes of the async handler to the resulting
component state (an unhandled rejection leaves the mutated state behind). -/
def settle : Except CallState CallState → CallState
  | Except.ok s => s
  | Except.error s => s

/-- The mount effect body on resolution of its `getUserMedia` call:
success stores the stream, failure is caught and logged
(`console.error`) only. -/
def startEffect (res : Except MediaErr Strm) (s : CallState) : CallState :=
  match res with
  | Except.ok stream =>
    { s with localStream := some stream, acquisitions := s.acquisitions + 1 }
  | Except.error _ =>
    { s with loggedErrors := s.loggedErrors + 1, acquisitions := s.acquisitions + 1 }

/-- The join-announcement effect: guarded by `connected && localStream &&
!joinSentRef.current`; sets the ref and sends `{ type: join }`. -/
def joinEffect (s : CallState) : CallState :=
  if s.connected && s.localStream.isSome && !s.joinSent then
    { s with joinSent := true, sent := s.sent ++ [OutMsg.join] }
  else s

/-- `toggleMute`: flips the enabled bit of the audio tracks of the local
stream (to the previous `isMuted` value, as in the source) and toggles
the flag. Optional chaining: with no local stream only the flag toggles. -/
def toggleMute (s : CallState) : CallState :=
  { s with
      localStream := s.localStream.map (Strm.setAudioEnabled s.isMuted)
      isMuted := !s.isMuted }

/-- `toggleVideo`: same shape on the video tracks and `isVideoOff`. -/
def toggleVideo (s : CallState) : CallState :=
  { s with
      localStream := s.localStream.map (Strm.setVideoEnabled s.isVideoOff)
      isVideoOff := !s.isVideoOff }

/-- `startScreenShare` on resolution of its `getDisplayMedia` call:
success stores the display stream and sets the flag (and registers the
native-end handler, an external event); failure is caught and logged.
No peer connection is touched and nothing is sent. -/
def startScreenShare (res : Except MediaErr Strm) (s : CallState) : CallState :=
  match res with
  | Except.ok stream => { s with screenStream := some stream, isScreenSharing := true }
  | Except.error _ => { s with loggedErrors := s.loggedErrors + 1 }

/-- `stopScreenShare`: stops the display tracks (the handle is then
discarded from state) and clears the flag. -/
def stopScreenShare (s : CallState) : CallState :=
  { s with screenStream := none, isScreenSharing := false }

/-- Close one `pcRef.current` entry in place. -/
def closeEntry (kv : Nat × PC) : Nat × PC :=
  (kv.1, kv.2.close)

/-- `hangUp`: stops every local and screen-share track, closes every peer
connection (all idempotent platform operations), and invokes `onClose`.
Modelled from the spec: the `onClose` callback supplied by the parent
page (not under src/) returns the call UI to `Idle`; it is embedded as
the idempotent `closed` flag. -/
def hangUp (s : CallState) : CallState :=
  { s with
      localStream := s.localStream.map Strm.stopAll
      screenStream := s.screenStream.map Strm.stopAll
      pcs := s.pcs.map closeEntry
      closed := true }

/-- One processed step of the signaling stream: the handler runs to
completion or to its unhandled rejection, either way leaving a state. -/
def stepSignal (localId : Nat) (fresh : Strm) (mediaOk descOk : Bool)
    (s : CallState) (d : Signal) : CallState :=
  settle (handleSignal localId fresh mediaOk descOk s d)

/-- Process a whole sequence of inbound signaling messages in arrival
order. -/
def runSignals (localId : Nat) (fresh : Strm) (mediaOk descOk : Bool)
    (s : CallState) (msgs : List Signal) : CallState :=
  msgs.foldl (stepSignal localId fresh mediaOk descOk) s

/-- The keys of `pcRef.current`: the remote participants that currently
have a peer connection. -/
def pcsKeys (s : CallState) : List Nat :=
  s.pcs.map Prod.fst

/-- `setPeers` upsert performed by the `ontrack` callback. -/
def upsertPeer (l : List (Nat × Option Nat)) (p sid : Nat) :
    List (Nat × Option Nat) :=
  if l.any (fun kv => kv.1 = p) then
    l.map fun kv => if kv.1 = p then (p, some sid) else kv
  else l ++ [(p, some sid)]

/-- The discrete events driving one call: socket connectivity changes,
resolution of the mount-effect media request, an inbound signaling
message (with the oracles for its awaited platform calls), the user
intents, and the transport callbacks (`ontrack`, `onicecandidate`). -/
inductive Event : Type
  | setConnected (b : Bool)
  | startResult (res : Except MediaErr Strm)
  | sig (fresh : Strm) (mediaOk descOk : Bool) (d : Signal)
  | mute
  | video
  | screen (res : Except MediaErr Strm)
  | screenStop
  | hang
  | trackArrived (peerId sid : Nat)
  | candidateProduced (peerId c : Nat)

/-- Apply one event's own state change (before effects re-run). The
`onicecandidate` callback exists only for connections that were actually
constructed, hence the lookup guard. -/
def applyRaw (localId : Nat) (s : CallState) : Event → CallState
  | Event.setConnected b => { s with connected := b }
  | Event.startResult res => startEffect res s
  | Event.sig fresh mediaOk descOk d => stepSignal localId fresh mediaOk descOk s d
  | Event.mute => toggleMute s
  | Event.video => toggleVideo s
  | Event.screen res => startScreenShare res s
  | Event.screenStop => stopScreenShare s
  | Event.hang => hangUp s
  | Event.trackArrived p sid => { s with peers := upsertPeer s.peers p sid }
  | Event.candidateProduced p c =>
    if (s.pcs.lookup p).isSome then { s with sent := s.sent ++ [OutMsg.iceMsg p c] }
    else s

/-- Apply one event and then re-run the join-announcement effect (React
re-runs it whenever its dependencies changed; its guard makes the extra
runs no-ops). -/
def applyEvent (localId : Nat) (s : CallState) (e : Event) : CallState :=
  joinEffect (applyRaw localId s e)

/-- Run a whole execution of a call from a state. -/
def runEvents (localId : Nat) (s : CallState) (evs : List Event) : CallState :=
  evs.foldl (applyEvent localId) s

/-- The join-announcement guard condition: signaling channel connected
and local media acquired. -/
def ready (s : CallState) : Bool :=
  s.connected && s.localStream.isSome

/-- Whether, at some point while processing the events, the state right
after an event was `ready`. -/
def everReady (localId : Nat) (s : CallState) : List Event → Bool
  | [] => false
  | e :: rest =>
    let s1 := applyEvent localId s e
    ready s1 || everReady localId s1 rest

/-- Count of `Join` announcements in the outbound trace. -/
def joinCount (l : List OutMsg) : Nat :=
  l.count OutMsg.join

/-- Claim-side (spec wording, for comparison): this message makes its
sender a member of the peer map — a `Join`, or an `Offer` addressed to
the local participant, from a valid sender other than the local one. -/
def addsPeer (localId : Nat) (d : Signal) : Option Nat :=
  match d.fromUser with
  | none => none
  | some p =>
    if p = 0 ∨ p = localId then none
    else
      match d.type with
      | SigType.join => some p
      | SigType.offer => if d.toUser = some localId then some p else none
      | _ => none

/-- Claim-side (spec wording, for comparison): this message removes a
participant from the peer map — a `Left` naming them in `user_id`,
delivered from a valid sender other than the local one. -/
def removesPeer (localId : Nat) (d : Signal) : Option Nat :=
  match d.fromUser with
  | none => none
  | some p =>
    if p = 0 ∨ p = localId then none
    else if d.type = SigType.left then d.userId else none

/-- Claim-side (amended wording): participant `p` is in the peer map
after the message sequence iff some message added them with no later
message removing them, scanned in arrival order. -/
def claimMember (localId p : Nat) (msgs : List Signal) : Bool :=
  msgs.foldl
    (fun b d =>
      if removesPeer localId d = some p then false
      else if addsPeer localId d = some p then true
      else b)
    false

/-- Claim-side (the claim exactly as stated): participant `p` sent some
non-`Left` message and has not subsequently sent `Left`. -/
def specSentNonLeft (p : Nat) (msgs : List Signal) : Bool :=
  msgs.foldl
    (fun b d =>
      if d.fromUser = some p then
        (if d.type = SigType.left then false else true)
      else b)
    false

/-- Claim-side (spec wording, for comparison): every candidate
application in a transport log happens after a remote description has
been applied. -/
def candAfterRemoteAux : Bool → List PcOp → Bool
  | _, [] => true
  | seen, op :: rest =>
    match op with
    | PcOp.setRemote => candAfterRemoteAux true rest
    | PcOp.addCandidate _ => seen && candAfterRemoteAux seen rest
    | _ => candAfterRemoteAux seen rest

/-- Entry point of `candAfterRemoteAux`: no remote description applied
yet at the start of the log. -/
def candAfterRemote (l : List PcOp) : Bool :=
  candAfterRemoteAux false l

/-! ## Concrete fixtures for witnesses and counterexamples -/

/-- A concrete camera+microphone stream as `getUserMedia` would deliver. -/
def sampleStream : Strm :=
  { sid := 7
    tracks :=
      [ { tid := 1, kind := TrackKind.audio, enabled := true, stopped := false, stops := 0 },
        { tid := 2, kind := TrackKind.video, enabled := true, stopped := false, stops := 0 } ] }

/-- A concrete display-capture stream as `getDisplayMedia` would deliver. -/
def sampleScreen : Strm :=
  { sid := 9
    tracks :=
      [ { tid := 3, kind := TrackKind.video, enabled := true, stopped := false, stops := 0 } ] }

/-- An inbound `join` broadcast from participant `p`. -/
def joinSig (p : Nat) : Signal :=
  { type := SigType.join, fromUser := some p, toUser := none,
    userId := none, candidate := none }

/-- An inbound `offer` from `p` addressed to `dest`. -/
def offerSig (p dest : Nat) : Signal :=
  { type := SigType.offer, fromUser := some p, toUser := some dest,
    userId := none, candidate := none }

/-- An inbound `answer` from `p` addressed to `dest`. -/
def answerSig (p dest : Nat) : Signal :=
  { type := SigType.answer, fromUser := some p, toUser := some dest,
    userId := none, candidate := none }

/-- An inbound `ice-candidate` from `p` addressed to `dest` carrying
candidate `c`. -/
def iceSig (p dest c : Nat) : Signal :=
  { type := SigType.ice, fromUser := some p, toUser := some dest,
    userId := none, candidate := some c }

/-- An inbound `user_left` delivered from `p` whose `user_id` names `q`. -/
def leftSig (p q : Nat) : Signal :=
  { type := SigType.left, fromUser := some p, toUser := none,
    userId := some q, candidate := none }

/-- State of local participant 1 after participant 2 announced `join`:
one peer connection for 2 with local tracks attached and an offer sent,
remote description not yet set. -/
def afterJoin2 : CallState :=
  runSignals 1 sampleStream true true init [joinSig 2]

/-- The connection object held for participant 2 in `afterJoin2`. -/
def pcAfterJoin2 : PC :=
  { pcid := 0
    ops := [PcOp.addTrack 1, PcOp.addTrack 2, PcOp.setLocal]
    remoteDescSet := false
    closed := false
    closes := 0 }

/-- Everything of a track except its enabled bit: the toggles may change
only the enabled bit, so this shape must be preserved. -/
def Track.shape (t : Track) : Nat × TrackKind × Bool × Nat :=
  (t.tid, t.kind, t.stopped, t.stops)

/-- Everything of a stream except the enabled bits of its tracks,
including the handle identity `sid`. -/
def Strm.shape (st : Strm) : Nat × List (Nat × TrackKind × Bool × Nat) :=
  (st.sid, st.tracks.map Track.shape)

/-- A track that has never been released. -/
def Track.live (t : Track) : Bool :=
  !t.stopped && t.stops == 0

/-- A track that has been released exactly once. -/
def Track.releasedOnce (t : Track) : Bool :=
  t.stopped && t.stops == 1

/-- All tracks of a stream never released. -/
def Strm.allLive (st : Strm) : Bool :=
  st.tracks.all Track.live

/-- All tracks of a stream released exactly once. -/
def Strm.allReleasedOnce (st : Strm) : Bool :=
  st.tracks.all Track.releasedOnce

/-- Lift a stream predicate to an optional handle (vacuously true when
absent). -/
def optStream (f : Strm → Bool) : Option Strm → Bool
  | none => true
  | some st => f st

/-- A connection that has never been closed. -/
def PC.live (pc : PC) : Bool :=
  !pc.closed && pc.closes == 0

/-- A connection that has been closed exactly once. -/
def PC.closedOnce (pc : PC) : Bool :=
  pc.closed && pc.closes == 1

/-- Every held resource (local tracks, screen-share tracks, peer
connections) not yet released. -/
def resourcesLive (s : CallState) : Bool :=
  optStream Strm.allLive s.localStream &&
  optStream Strm.allLive s.screenStream &&
  s.pcs.all fun kv => kv.2.live

/-- Every held resource released exactly once. -/
def resourcesReleasedOnce (s : CallState) : Bool :=
  optStream Strm.allReleasedOnce s.localStream &&
  optStream Strm.allReleasedOnce s.screenStream &&
  s.pcs.all fun kv => kv.2.closedOnce

/-! ## Helper lemmas -/

lemma Track.stop_stop (t : Track) : t.stop.stop = t.stop := by
  by_cases h : t.stopped <;> simp [Track.stop, h]

lemma Strm.stopAll_stopAll (st : Strm) : st.stopAll.stopAll = st.stopAll := by
  simp only [Strm.stopAll, List.map_map]
  exact congrArg _ (List.map_congr_left fun t _ => Track.stop_stop t)

lemma opt_stopAll_idem (o : Option Strm) :
    (o.map Strm.stopAll).map Strm.stopAll = o.map Strm.stopAll := by
  cases o <;> simp [Strm.stopAll_stopAll]

lemma PC.close_close (pc : PC) : pc.close.close = pc.close := by
  by_cases h : pc.closed <;> simp [PC.close, h]

lemma closeEntry_closeEntry (kv : Nat × PC) : closeEntry (closeEntry kv) = closeEntry kv := by
  simp [closeEntry, PC.close_close]

lemma map_closeEntry_idem (l : List (Nat × PC)) :
    (l.map closeEntry).map closeEntry = l.map closeEntry := by
  rw [List.map_map]
  exact List.map_congr_left fun kv _ => closeEntry_closeEntry kv

lemma Track.live_stop_releasedOnce (t : Track) (h : t.live = true) :
    t.stop.releasedOnce = true := by
  simp [Track.live] at h
  simp [Track.stop, Track.releasedOnce, h.1, h.2]

lemma Strm.allLive_stopAll (st : Strm) (h : st.allLive = true) :
    st.stopAll.allReleasedOnce = true := by
  simp only [Strm.allLive, List.all_eq_true] at h
  simp only [Strm.stopAll, Strm.allReleasedOnce, List.all_map, List.all_eq_true,
    Function.comp]
  exact fun t ht => Track.live_stop_releasedOnce t (h t ht)

lemma optStream_stopAll (o : Option Strm) (h : optStream Strm.allLive o = true) :
    optStream Strm.allReleasedOnce (o.map Strm.stopAll) = true := by
  cases o with
  | none => rfl
  | some st => exact Strm.allLive_stopAll st h

lemma PC.live_close_closedOnce (pc : PC) (h : pc.live = true) :
    pc.close.closedOnce = true := by
  simp [PC.live] at h
  simp [PC.close, PC.closedOnce, h.1, h.2]

lemma Strm.shape_setAudioEnabled (b : Bool) (st : Strm) :
    (Strm.setAudioEnabled b st).shape = st.shape := by
  simp only [Strm.shape, Strm.setAudioEnabled, List.map_map, Prod.mk.injEq, true_and]
  apply List.map_congr_left
  intro t _
  by_cases h : t.kind = TrackKind.audio <;> simp [Track.shape, Function.comp, h]

lemma lookup_map_update {β : Type} (l : List (Nat × β)) (k : Nat) (b : β)
    (h : (List.lookup k l).isSome = true) :
    List.lookup k (l.map fun kv => if kv.1 = k then (k, b) else kv) = some b := by
  induction l with
  | nil => simp at h
  | cons kv rest ih =>
    by_cases hk : kv.1 = k
    · simp [hk, List.lookup_cons]
    · have hne : k ≠ kv.1 := fun hcon => hk hcon.symm
      simp only [List.map_cons, if_neg hk] at *
      rw [List.lookup_cons] at h ⊢
      simp only [beq_false_of_ne hne] at h ⊢
      exact ih h

lemma lookup_none_not_mem {β : Type} (l : List (Nat × β)) (k : Nat)
    (h : List.lookup k l = none) : k ∉ l.map Prod.fst := by
  induction l with
  | nil => simp
  | cons kv rest ih =>
    intro hmem
    rw [List.map_cons, List.mem_cons] at hmem
    by_cases hk : k = kv.1
    · rw [List.lookup_cons] at h
      simp [hk] at h
    · rw [List.lookup_cons] at h
      simp only [beq_false_of_ne hk] at h
      rcases hmem with h1 | h2
      · exact hk h1
      · exact ih h h2

lemma lookup_some_mem_keys {β : Type} (l : List (Nat × β)) (k : Nat) (b : β)
    (h : List.lookup k l = some b) : k ∈ l.map Prod.fst := by
  induction l with
  | nil => simp [List.lookup] at h
  | cons kv rest ih =>
    by_cases hk : k = kv.1
    · simp [hk]
    · rw [List.lookup_cons] at h
      simp only [beq_false_of_ne hk] at h
      rw [List.map_cons, List.mem_cons]
      exact Or.inr (ih h)

lemma Strm.shape_setVideoEnabled (b : Bool) (st : Strm) :
    (Strm.setVideoEnabled b st).shape = st.shape := by
  simp only [Strm.shape, Strm.setVideoEnabled, List.map_map, Prod.mk.injEq, true_and]
  apply List.map_congr_left
  intro t _
  by_cases h : t.kind = TrackKind.video <;> simp [Track.shape, Function.comp, h]

lemma joinCount_append_nonjoin (l : List OutMsg) (m : OutMsg) (h : m ≠ OutMsg.join) :
    joinCount (l ++ [m]) = joinCount l := by
  simp [joinCount, List.count_append, List.count_cons, List.count_nil, beq_false_of_ne h]

lemma joinCount_append_join (l : List OutMsg) :
    joinCount (l ++ [OutMsg.join]) = joinCount l + 1 := by
  simp [joinCount, List.count_append, List.count_cons, List.count_nil]

lemma acquireIfNeeded_ok_frame {fresh : Strm} {mOk : Bool} {s s1 : CallState} {st : Strm}
    (h : acquireIfNeeded fresh mOk s = Except.ok (s1, st)) :
    s1.joinSent = s.joinSent ∧ s1.sent = s.sent ∧ s1.pcs = s.pcs ∧
      s1.nextPcId = s.nextPcId := by
  unfold acquireIfNeeded at h
  cases hls : s.localStream with
  | some st0 =>
    rw [hls] at h
    cases h
    exact ⟨rfl, rfl, rfl, rfl⟩
  | none =>
    rw [hls] at h
    by_cases hm : mOk
    · rw [if_pos hm] at h
      cases h
      exact ⟨rfl, rfl, rfl, rfl⟩
    · rw [if_neg hm] at h
      cases h

lemma acquireIfNeeded_error_frame {fresh : Strm} {mOk : Bool} {s s1 : CallState}
    (h : acquireIfNeeded fresh mOk s = Except.error s1) :
    s1.joinSent = s.joinSent ∧ s1.sent = s.sent ∧ s1.pcs = s.pcs ∧
      s1.nextPcId = s.nextPcId := by
  unfold acquireIfNeeded at h
  cases hls : s.localStream with
  | some st0 =>
    rw [hls] at h
    cases h
  | none =>
    rw [hls] at h
    by_cases hm : mOk
    · rw [if_pos hm] at h
      cases h
    · rw [if_neg hm] at h
      cases h
      exact ⟨rfl, rfl, rfl, rfl⟩

lemma createPeerConnection_frame (s : CallState) (p : Nat) (i : Bool) :
    (createPeerConnection s p i).1.joinSent = s.joinSent ∧
      (createPeerConnection s p i).1.sent = s.sent ∧
      (createPeerConnection s p i).1.localStream = s.localStream := by
  unfold createPeerConnection
  cases s.pcs.lookup p <;> exact ⟨rfl, rfl, rfl⟩

/-- The signaling handler never touches the join flag and never sends a
`Join` announcement, whatever the message and the platform outcomes. -/
lemma stepSignal_frame (localId : Nat) (fresh : Strm) (mOk dOk : Bool)
    (s : CallState) (d : Signal) :
    (stepSignal localId fresh mOk dOk s d).joinSent = s.joinSent ∧
      joinCount (stepSignal localId fresh mOk dOk s d).sent = joinCount s.sent := by
  rcases d with ⟨ty, fu, tu, uid, cand⟩
  cases fu with
  | none => exact ⟨rfl, rfl⟩
  | some p =>
    by_cases h0 : p = 0 ∨ p = localId
    · simp [stepSignal, handleSignal, h0, settle]
    · cases ty with
      | join =>
        simp only [stepSignal, handleSignal, if_neg h0]
        cases hacq : acquireIfNeeded fresh mOk s with
        | error s1 =>
          rcases acquireIfNeeded_error_frame hacq with ⟨hj, hc, _, _⟩
          dsimp only [settle]
          exact ⟨hj, by rw [hc]⟩
        | ok pr =>
          rcases pr with ⟨s1, stream⟩
          rcases acquireIfNeeded_ok_frame hacq with ⟨hj, hc, _, _⟩
          rcases createPeerConnection_frame s1 p true with ⟨hj2, hc2, _⟩
          dsimp only
          cases hadd : addTracksLoop stream.tracks (createPeerConnection s1 p true).2 with
          | error pcPartial =>
            dsimp only [settle, setPc]
            exact ⟨by rw [hj2, hj], by rw [hc2, hc]⟩
          | ok pc1 =>
            dsimp only [settle, setPc]
            refine ⟨by rw [hj2, hj], ?_⟩
            rw [joinCount_append_nonjoin _ _ (by simp)]
            rw [hc2, hc]
      | offer =>
        by_cases ht : tu = some localId
        · simp only [stepSignal, handleSignal, if_neg h0, if_pos ht]
          rcases createPeerConnection_frame s p false with ⟨hj2, hc2, _⟩
          cases hacq : acquireIfNeeded fresh mOk (createPeerConnection s p false).1 with
          | error s1 =>
            rcases acquireIfNeeded_error_frame hacq with ⟨hj, hc, _, _⟩
            dsimp only [settle]
            exact ⟨by rw [hj, hj2], by rw [hc, hc2]⟩
          | ok pr =>
            rcases pr with ⟨s1, stream⟩
            rcases acquireIfNeeded_ok_frame hacq with ⟨hj, hc, _, _⟩
            dsimp only
            cases hadd : addTracksLoop stream.tracks (createPeerConnection s p false).2 with
            | error pcPartial =>
              dsimp only [settle, setPc]
              exact ⟨by rw [hj, hj2], by rw [hc, hc2]⟩
            | ok pc1 =>
              by_cases hd : dOk
              · simp only [if_pos hd]
                dsimp only [settle, setPc]
                refine ⟨by rw [hj, hj2], ?_⟩
                rw [joinCount_append_nonjoin _ _ (by simp)]
                rw [hc, hc2]
              · simp only [if_neg hd]
                dsimp only [settle, setPc]
                exact ⟨by rw [hj, hj2], by rw [hc, hc2]⟩
        · simp only [stepSignal, handleSignal, if_neg h0, if_neg ht]
          exact ⟨rfl, rfl⟩
      | answer =>
        by_cases ht : tu = some localId
        · simp only [stepSignal, handleSignal, if_neg h0, if_pos ht]
          cases hlk : s.pcs.lookup p with
          | some pc =>
            by_cases hd : dOk
            · simp only [if_pos hd]
              exact ⟨rfl, rfl⟩
            · simp only [if_neg hd]
              exact ⟨rfl, rfl⟩
          | none => exact ⟨rfl, rfl⟩
        · simp only [stepSignal, handleSignal, if_neg h0, if_neg ht]
          exact ⟨rfl, rfl⟩
      | ice =>
        cases cand with
        | some c =>
          by_cases ht : tu = some localId
          · simp only [stepSignal, handleSignal, if_neg h0, if_pos ht]
            cases hlk : s.pcs.lookup p with
            | some pc =>
              by_cases hd : dOk
              · simp only [if_pos hd]
                exact ⟨rfl, rfl⟩
              · simp only [if_neg hd]
                exact ⟨rfl, rfl⟩
            | none => exact ⟨rfl, rfl⟩
          · simp only [stepSignal, handleSignal, if_neg h0, if_neg ht]
            exact ⟨rfl, rfl⟩
        | none =>
          simp only [stepSignal, handleSignal, if_neg h0]
          exact ⟨rfl, rfl⟩
      | left =>
        cases uid with
        | some pid =>
          simp only [stepSignal, handleSignal, if_neg h0]
          cases hlk : s.pcs.lookup pid with
          | some pc => exact ⟨rfl, rfl⟩
          | none => exact ⟨rfl, rfl⟩
        | none =>
          simp only [stepSignal, handleSignal, if_neg h0]
          exact ⟨rfl, rfl⟩

/-! ## Claims -/

/-- C1 counterexample: the claim as stated is false. After participant 2
announces `join` (creating the session and sending an offer, remote
description still unset), an `IceCandidate` from 2 is passed straight to
the transport: the resulting operation log for that connection applies a
candidate with no prior remote description — it was not queued until
after the remote description was set. -/
theorem c1_candidate_not_queued_cex :
    ((runSignals 1 sampleStream true true init
        [joinSig 2, iceSig 2 1 5]).pcs.lookup 2).map
      (fun pc => candAfterRemote pc.ops) = some false := by
  decide

/-- C1 (amended): an inbound `IceCandidate` addressed to the local
participant whose Peer Session exists but whose remote description has
not yet been set is applied to the transport immediately upon arrival —
there is no queue, and application is not deferred until after the
remote description is set. -/
theorem c1_candidate_applied_immediately
    (localId p c : Nat) (fresh : Strm) (mediaOk : Bool)
    (s : CallState) (pc : PC)
    (hp0 : p ≠ 0) (hpl : p ≠ localId)
    (hpc : s.pcs.lookup p = some pc)
    (_hrd : pc.remoteDescSet = false) :
    handleSignal localId fresh mediaOk true s (iceSig p localId c) =
      Except.ok (setPc s p { pc with ops := pc.ops ++ [PcOp.addCandidate c] }) := by
  simp [handleSignal, iceSig, hp0, hpl, hpc]

/-- Witness for C1 (amended) at a concrete session created by a `join`
from participant 2, remote description not yet set. -/
theorem c1_candidate_applied_immediately_witness :
    handleSignal 1 sampleStream true true afterJoin2 (iceSig 2 1 5) =
      Except.ok (setPc afterJoin2 2
        { pcAfterJoin2 with ops := pcAfterJoin2.ops ++ [PcOp.addCandidate 5] }) :=
  c1_candidate_applied_immediately 1 2 5 sampleStream true afterJoin2 pcAfterJoin2
    (by decide) (by decide) (by decide) (by decide)

/-- C4 counterexample: the claim as stated is false. When the initial
`getUserMedia` of the mount effect rejects, the component neither closes
(no return to `Idle`: `onClose` is not invoked) nor surfaces anything —
the error is only written to the console log, and no message or state
change reaches the UI boundary. -/
theorem c4_media_error_not_fatal_cex :
    (startEffect (Except.error MediaErr.denied) init).closed = false ∧
    (startEffect (Except.error MediaErr.denied) init).localStream = none ∧
    (startEffect (Except.error MediaErr.denied) init).sent = [] ∧
    (startEffect (Except.error MediaErr.denied) init).loggedErrors = 1 := by
  decide

/-- C4 (amended): if the initial local media acquisition fails, the
failure is caught and logged to the console only; the call does not
return to `Idle`, nothing is reported to the UI boundary, and the local
stream stays unset (so the `Join` announcement stays gated off). -/
theorem c4_media_error_logged_only (s : CallState) (e : MediaErr) :
    (startEffect (Except.error e) s).closed = s.closed ∧
    (startEffect (Except.error e) s).localStream = s.localStream ∧
    (startEffect (Except.error e) s).sent = s.sent ∧
    (startEffect (Except.error e) s).pcs = s.pcs ∧
    (startEffect (Except.error e) s).loggedErrors = s.loggedErrors + 1 := by
  cases e
  simp [startEffect]

/-- C5 counterexample: the claim as stated is false. In a state with an
existing negotiating Peer Session (participant 2, offer sent, awaiting
answer), starting screen share acquires the display stream but issues no
renegotiation offer to that peer: the outbound trace and every peer
connection are unchanged. -/
theorem c5_screenshare_no_renegotiation_cex :
    (startScreenShare (Except.ok sampleScreen) afterJoin2).sent = afterJoin2.sent ∧
    (startScreenShare (Except.ok sampleScreen) afterJoin2).pcs = afterJoin2.pcs ∧
    afterJoin2.pcs.lookup 2 ≠ none := by
  decide

/-- C5 (amended): starting screen share only acquires the display stream
and sets the local screen-share flags; it attaches no track to any peer
connection and sends no offer (or any other message) to any peer,
whatever the current peer set. -/
theorem c5_screenshare_local_only (res : Except MediaErr Strm) (s : CallState) :
    (startScreenShare res s).sent = s.sent ∧
    (startScreenShare res s).pcs = s.pcs ∧
    (startScreenShare res s).localStream = s.localStream := by
  cases res <;> simp [startScreenShare]

/-- C6 counterexample: the claim as stated is false. With one Peer
Session for participant 2, a transport-rejected remote description
(answer from 2) leaves the whole state exactly as it was: the session is
still in the map and not closed — it does not transition to `Closed` and
is not removed. -/
theorem c6_negotiation_failure_not_closed_cex :
    handleSignal 1 sampleStream true false afterJoin2 (answerSig 2 1) =
      Except.error afterJoin2 ∧
    (afterJoin2.pcs.lookup 2).map (fun pc => pc.closed) = some false ∧
    pcsKeys afterJoin2 = [2] := by
  exact ⟨by rfl, by decide, by decide⟩

/-- C6 (amended): when the transport rejects a remote-description or
candidate application for an existing Peer Session, the rejection
propagates out of the handler as an unhandled promise rejection and the
state is left exactly as it was at the failure point: the affected
session is neither closed nor removed, and every other session and the
call as a whole are untouched (because nothing at all changes). -/
theorem c6_negotiation_failure_leaves_state
    (localId p c : Nat) (fresh : Strm) (mediaOk : Bool)
    (s : CallState) (pc : PC)
    (hp0 : p ≠ 0) (hpl : p ≠ localId)
    (hpc : s.pcs.lookup p = some pc) :
    handleSignal localId fresh mediaOk false s (answerSig p localId) =
      Except.error s ∧
    handleSignal localId fresh mediaOk false s (iceSig p localId c) =
      Except.error s := by
  constructor
  · simp [handleSignal, answerSig, hp0, hpl, hpc]
  · simp [handleSignal, iceSig, hp0, hpl, hpc]

/-- Witness for C6 (amended) at the concrete session for participant 2. -/
theorem c6_negotiation_failure_leaves_state_witness :
    handleSignal 1 sampleStream true false afterJoin2 (answerSig 2 1) =
      Except.error afterJoin2 ∧
    handleSignal 1 sampleStream true false afterJoin2 (iceSig 2 1 5) =
      Except.error afterJoin2 :=
  c6_negotiation_failure_leaves_state 1 2 5 sampleStream true afterJoin2 pcAfterJoin2
    (by decide) (by decide) (by decide)

/-- C9 counterexample: the claim as stated is false. In the initial
state (no local stream yet), `toggleMute` and `toggleVideo` are not
no-ops: the visible mute / camera-off flags still flip. -/
theorem c9_toggle_without_stream_not_noop_cex :
    toggleMute init ≠ init ∧ toggleVideo init ≠ init ∧
    (toggleMute init).isMuted = true ∧ (toggleVideo init).isVideoOff = true := by
  decide

/-- C9 (amended): calling the mute or camera toggle when no local stream
has been acquired skips every track operation (optional chaining), but
still flips the corresponding visible flag; nothing else changes. -/
theorem c9_toggle_without_stream_flips_flag (s : CallState)
    (h : s.localStream = none) :
    toggleMute s = { s with isMuted := !s.isMuted } ∧
    toggleVideo s = { s with isVideoOff := !s.isVideoOff } := by
  constructor
  · simp [toggleMute, h]
  · simp [toggleVideo, h]

/-- Witness for C9 (amended) at the initial state. -/
theorem c9_toggle_without_stream_flips_flag_witness :
    toggleMute init = { init with isMuted := !init.isMuted } ∧
    toggleVideo init = { init with isVideoOff := !init.isVideoOff } :=
  c9_toggle_without_stream_flips_flag init (by decide)

/-- Helper for C7: one `hangUp` releases every live resource exactly
once. -/
lemma hangUp_releases_once (s : CallState) (h : resourcesLive s = true) :
    resourcesReleasedOnce (hangUp s) = true := by
  simp only [resourcesLive, Bool.and_eq_true, List.all_eq_true] at h
  obtain ⟨⟨hl, hs⟩, hp⟩ := h
  simp only [resourcesReleasedOnce, hangUp, Bool.and_eq_true, List.all_eq_true]
  refine ⟨⟨optStream_stopAll _ hl, optStream_stopAll _ hs⟩, ?_⟩
  intro kv hkv
  rcases List.mem_map.mp hkv with ⟨kv0, hkv0, rfl⟩
  exact PC.live_close_closedOnce kv0.2 (hp kv0 hkv0)

/-- Composed stop of an optional stream collapses to a single stop. -/
lemma opt_map_comp_stopAll (o : Option Strm) :
    Option.map (Strm.stopAll ∘ Strm.stopAll) o = Option.map Strm.stopAll o := by
  cases o <;> simp [Strm.stopAll_stopAll, Function.comp]

/-- Helper for C7: `hangUp` is idempotent on the whole state. -/
lemma hangUp_hangUp (s : CallState) : hangUp (hangUp s) = hangUp s := by
  cases s
  simp [hangUp, opt_stopAll_idem, map_closeEntry_idem]
  exact ⟨fun a b _ => closeEntry_closeEntry (a, b),
    opt_map_comp_stopAll _, opt_map_comp_stopAll _⟩

/-- C7: `hangUp` is idempotent — calling it twice from any state yields
exactly the state of calling it once (so the second call cannot fault),
and when the resources were live, the double call still releases each
local track, screen-share track and peer connection exactly once
(the platform stop/close operations are no-ops the second time). -/
theorem c7_hangUp_idempotent_single_release (s : CallState) :
    hangUp (hangUp s) = hangUp s ∧
    (resourcesLive s = true → resourcesReleasedOnce (hangUp (hangUp s)) = true) := by
  refine ⟨hangUp_hangUp s, fun h => ?_⟩
  rw [hangUp_hangUp s]
  exact hangUp_releases_once s h

/-- Witness for C7 at a concrete in-call state (live local stream, one
open peer connection). -/
theorem c7_hangUp_idempotent_single_release_witness :
    hangUp (hangUp afterJoin2) = hangUp afterJoin2 ∧
    resourcesReleasedOnce (hangUp (hangUp afterJoin2)) = true :=
  ⟨(c7_hangUp_idempotent_single_release afterJoin2).1,
   (c7_hangUp_idempotent_single_release afterJoin2).2 (by decide)⟩

/-- C8: with an acquired local stream, toggling mute or camera — in
particular muting and then unmuting — never re-acquires the capture
device (the `getUserMedia` invocation count is unchanged) and never
changes the local stream handle's identity; only enabled bits of the
existing tracks may change (the shape — handle id, track ids, kinds,
stopped flags, release counts — is preserved). -/
theorem c8_toggles_touch_only_enabled_bits (s : CallState) (st : Strm)
    (h : s.localStream = some st) :
    (toggleMute s).localStream.map Strm.shape = some st.shape ∧
    (toggleVideo s).localStream.map Strm.shape = some st.shape ∧
    (toggleMute (toggleMute s)).localStream.map Strm.shape = some st.shape ∧
    (toggleMute s).acquisitions = s.acquisitions ∧
    (toggleVideo s).acquisitions = s.acquisitions ∧
    (toggleMute (toggleMute s)).acquisitions = s.acquisitions := by
  simp [toggleMute, toggleVideo, h, Strm.shape_setAudioEnabled,
    Strm.shape_setVideoEnabled]

/-- Witness for C8 at the concrete state right after media acquisition. -/
theorem c8_toggles_touch_only_enabled_bits_witness :
    (toggleMute (startEffect (Except.ok sampleStream) init)).localStream.map Strm.shape =
      some sampleStream.shape ∧
    (toggleVideo (startEffect (Except.ok sampleStream) init)).localStream.map Strm.shape =
      some sampleStream.shape ∧
    (toggleMute (toggleMute (startEffect (Except.ok sampleStream) init))).localStream.map
      Strm.shape = some sampleStream.shape ∧
    (toggleMute (startEffect (Except.ok sampleStream) init)).acquisitions =
      (startEffect (Except.ok sampleStream) init).acquisitions ∧
    (toggleVideo (startEffect (Except.ok sampleStream) init)).acquisitions =
      (startEffect (Except.ok sampleStream) init).acquisitions ∧
    (toggleMute (toggleMute (startEffect (Except.ok sampleStream) init))).acquisitions =
      (startEffect (Except.ok sampleStream) init).acquisitions :=
  c8_toggles_touch_only_enabled_bits (startEffect (Except.ok sampleStream) init)
    sampleStream (by decide)

/-- C10 counterexample: the claim as stated is false. On a second `join`
from participant 2 (existing connection with the committed local tracks
already attached), the renewed `pc.addTrack` of the first track is
rejected by the transport (`InvalidAccessError` for an already-attached
track), the rejection escapes the handler, and the operation log of the
connection is unchanged (no track re-added, no new local description)
and no fresh `Offer` is sent. -/
theorem c10_duplicate_join_no_reoffer_cex :
    handleSignal 1 sampleStream true true afterJoin2 (joinSig 2) =
      Except.error (setPc afterJoin2 2 pcAfterJoin2) ∧
    (setPc afterJoin2 2 pcAfterJoin2).sent = afterJoin2.sent ∧
    ((setPc afterJoin2 2 pcAfterJoin2).pcs.lookup 2).map (fun pc => pc.ops) =
      some [PcOp.addTrack 1, PcOp.addTrack 2, PcOp.setLocal] := by
  exact ⟨by rfl, by decide, by decide⟩

/-- C10 (amended): an inbound `join` from a participant whose peer
connection already exists reuses that connection object (it does not
create or replace one — same stored object, `nextPcId` unchanged), but
when the local tracks are already attached to it, the renewed
`pc.addTrack` of the first such track is rejected by the transport
(`InvalidAccessError`); the rejection escapes the handler as an
unhandled promise rejection, so no track is re-added, no fresh `Offer`
is sent, and the connection and outbound trace are left unchanged. -/
theorem c10_duplicate_join_rejected
    (localId p : Nat) (fresh : Strm) (mediaOk descOk : Bool)
    (s : CallState) (pc : PC) (st : Strm) (t0 : Track) (rest : List Track)
    (hp0 : p ≠ 0) (hpl : p ≠ localId)
    (hpc : s.pcs.lookup p = some pc) (hls : s.localStream = some st)
    (htr : st.tracks = t0 :: rest)
    (hsender : pc.hasSender t0.tid = true) :
    handleSignal localId fresh mediaOk descOk s (joinSig p) =
      Except.error (setPc s p pc) ∧
    (setPc s p pc).sent = s.sent ∧
    (setPc s p pc).pcs.lookup p = some pc ∧
    (setPc s p pc).nextPcId = s.nextPcId ∧
    (setPc s p pc).acquisitions = s.acquisitions := by
  refine ⟨?_, rfl, ?_, rfl, rfl⟩
  · simp [handleSignal, joinSig, hp0, hpl, acquireIfNeeded, hls,
      createPeerConnection, hpc, htr, addTracksLoop, hsender]
  · exact lookup_map_update s.pcs p pc (by rw [hpc]; rfl)

/-- Witness for C10 (amended): the concrete duplicated `join` from
participant 2 right after the first one. -/
theorem c10_duplicate_join_rejected_witness :
    handleSignal 1 sampleStream true true afterJoin2 (joinSig 2) =
      Except.error (setPc afterJoin2 2 pcAfterJoin2) ∧
    (setPc afterJoin2 2 pcAfterJoin2).sent = afterJoin2.sent ∧
    (setPc afterJoin2 2 pcAfterJoin2).pcs.lookup 2 = some pcAfterJoin2 ∧
    (setPc afterJoin2 2 pcAfterJoin2).nextPcId = afterJoin2.nextPcId ∧
    (setPc afterJoin2 2 pcAfterJoin2).acquisitions = afterJoin2.acquisitions :=
  c10_duplicate_join_rejected 1 2 sampleStream true true afterJoin2 pcAfterJoin2
    sampleStream
    { tid := 1, kind := TrackKind.audio, enabled := true, stopped := false, stops := 0 }
    [{ tid := 2, kind := TrackKind.video, enabled := true, stopped := false, stops := 0 }]
    (by decide) (by decide) (by decide) (by decide) (by decide) (by decide)

/-- No raw event changes the `joinSentRef` flag (only the join effect
does). -/
lemma applyRaw_joinSent (localId : Nat) (s : CallState) (e : Event) :
    (applyRaw localId s e).joinSent = s.joinSent := by
  cases e with
  | setConnected b => rfl
  | startResult res => cases res <;> rfl
  | sig fresh mOk dOk d => exact (stepSignal_frame localId fresh mOk dOk s d).1
  | mute => rfl
  | video => rfl
  | screen res => cases res <;> rfl
  | screenStop => rfl
  | hang => rfl
  | trackArrived p sid => rfl
  | candidateProduced p c =>
    by_cases h : (s.pcs.lookup p).isSome <;> simp [applyRaw, h]

/-- No raw event sends a `Join` announcement (only the join effect
does). -/
lemma applyRaw_joinCount (localId : Nat) (s : CallState) (e : Event) :
    joinCount (applyRaw localId s e).sent = joinCount s.sent := by
  cases e with
  | setConnected b => rfl
  | startResult res => cases res <;> rfl
  | sig fresh mOk dOk d => exact (stepSignal_frame localId fresh mOk dOk s d).2
  | mute => rfl
  | video => rfl
  | screen res => cases res <;> rfl
  | screenStop => rfl
  | hang => rfl
  | trackArrived p sid => rfl
  | candidateProduced p c =>
    by_cases h : (s.pcs.lookup p).isSome <;>
      simp [applyRaw, h, joinCount_append_nonjoin]

/-- The join effect leaves the readiness condition alone. -/
lemma ready_joinEffect (s : CallState) : ready (joinEffect s) = ready s := by
  unfold joinEffect
  split <;> rfl

/-- Main induction for C3: starting from a state where the effect has
already stabilised (flag unset only when not ready), the number of
`Join` announcements grows by exactly one iff the run ever becomes
ready with the flag still unset. -/
lemma joinCount_runEvents (localId : Nat) (evs : List Event) :
    ∀ s : CallState, (s.joinSent = false → ready s = false) →
      joinCount (runEvents localId s evs).sent =
        joinCount s.sent +
          (if s.joinSent then 0 else if everReady localId s evs then 1 else 0) := by
  induction evs with
  | nil =>
    intro s _
    cases hj : s.joinSent <;> simp [runEvents, everReady, hj]
  | cons e rest ih =>
    intro s hinv
    have hrun : runEvents localId s (e :: rest) =
        runEvents localId (applyEvent localId s e) rest := rfl
    have hever : everReady localId s (e :: rest) =
        (ready (applyEvent localId s e) || everReady localId (applyEvent localId s e) rest) := rfl
    have hraw_js := applyRaw_joinSent localId s e
    have hraw_jc := applyRaw_joinCount localId s e
    by_cases hj : s.joinSent
    · -- the announcement already went out: the effect can never fire again
      have hj0 : (applyRaw localId s e).joinSent = true := by rw [hraw_js, hj]
      have heq : applyEvent localId s e = applyRaw localId s e := by
        unfold applyEvent joinEffect
        simp [hj0]
      have hinv1 : (applyEvent localId s e).joinSent = false →
          ready (applyEvent localId s e) = false := by
        intro hcon
        rw [heq, hj0] at hcon
        cases hcon
      have := ih (applyEvent localId s e) hinv1
      rw [hrun, this, heq, hj0, hraw_jc]
      simp [hj]
    · have hjf : s.joinSent = false := by simpa using hj
      have hj0 : (applyRaw localId s e).joinSent = false := by rw [hraw_js, hjf]
      by_cases hr : ready (applyRaw localId s e)
      · -- the effect fires right after this event
        have heq : applyEvent localId s e =
            { applyRaw localId s e with
                joinSent := true
                sent := (applyRaw localId s e).sent ++ [OutMsg.join] } := by
          unfold applyEvent joinEffect
          unfold ready at hr
          rw [hj0]
          simp only [Bool.and_eq_true] at hr
          simp [hr.1, hr.2]
        have hinv1 : (applyEvent localId s e).joinSent = false →
            ready (applyEvent localId s e) = false := by
          intro hcon
          rw [heq] at hcon
          cases hcon
        have hready1 : ready (applyEvent localId s e) = true := by
          unfold applyEvent
          rw [ready_joinEffect]
          exact hr
        have := ih (applyEvent localId s e) hinv1
        rw [hrun, this, heq]
        simp only [joinCount_append_join, hraw_jc]
        rw [hever, hready1]
        simp [hjf]
      · -- not ready yet: the effect stays silent
        have heq : applyEvent localId s e = applyRaw localId s e := by
          unfold applyEvent joinEffect
          unfold ready at hr
          simp only [Bool.not_eq_true] at hr
          simp [hr]
        have hready1 : ready (applyEvent localId s e) = false := by
          unfold applyEvent
          rw [ready_joinEffect]
          simpa using hr
        have hinv1 : (applyEvent localId s e).joinSent = false →
            ready (applyEvent localId s e) = false := fun _ => hready1
        have := ih (applyEvent localId s e) hinv1
        rw [hrun, this, hever, hready1, heq, hj0, hraw_jc]
        simp [hjf]

/-- `setPc` never changes the key set of the connection table. -/
lemma pcsKeys_setPc (s : CallState) (k : Nat) (pc : PC) :
    pcsKeys (setPc s k pc) = pcsKeys s := by
  simp only [pcsKeys, setPc, List.map_map]
  apply List.map_congr_left
  intro kv _
  by_cases h : kv.1 = k <;> simp [Function.comp, h]

/-- With media available, the lazy acquisition always succeeds and never
touches the connection table. -/
lemma acquireIfNeeded_true_ok (fresh : Strm) (s : CallState) :
    ∃ s1 st, acquireIfNeeded fresh true s = Except.ok (s1, st) ∧ s1.pcs = s.pcs := by
  unfold acquireIfNeeded
  cases s.localStream with
  | none => exact ⟨_, _, rfl, rfl⟩
  | some st => exact ⟨s, st, rfl, rfl⟩

/-- Key-set membership after `createPeerConnection`: the requested peer
is present, everything else as before. -/
lemma mem_pcsKeys_create (s : CallState) (q : Nat) (i : Bool) (p : Nat) :
    (p ∈ pcsKeys (createPeerConnection s q i).1) ↔ (p = q ∨ p ∈ pcsKeys s) := by
  unfold createPeerConnection
  cases hlk : s.pcs.lookup q with
  | some pc =>
    dsimp only
    constructor
    · exact Or.inr
    · rintro (rfl | h)
      · exact lookup_some_mem_keys _ _ _ hlk
      · exact h
  | none =>
    dsimp only
    rw [pcsKeys, pcsKeys, List.map_append]
    simp [or_comm]

/-- `setPc` never changes the key list of the underlying table. -/
lemma map_fst_setPc (s : CallState) (k : Nat) (pc : PC) :
    (setPc s k pc).pcs.map Prod.fst = s.pcs.map Prod.fst := by
  simp only [setPc, List.map_map]
  apply List.map_congr_left
  intro kv _
  by_cases h : kv.1 = k <;> simp [Function.comp, h]

/-- Key membership after `createPeerConnection`, at the table level. -/
lemma mem_map_fst_create (s : CallState) (q : Nat) (i : Bool) (p : Nat) :
    (p ∈ (createPeerConnection s q i).1.pcs.map Prod.fst) ↔
      (p = q ∨ p ∈ s.pcs.map Prod.fst) := by
  unfold createPeerConnection
  cases hlk : s.pcs.lookup q with
  | some pc =>
    dsimp only
    constructor
    · exact Or.inr
    · rintro (rfl | h)
      · exact lookup_some_mem_keys _ _ _ hlk
      · exact h
  | none =>
    dsimp only
    rw [List.map_append]
    simp [or_comm]

/-- Key membership after removal of `pid`, at the table level. -/
lemma mem_map_fst_filter_ne (l : List (Nat × PC)) (pid p : Nat) :
    (p ∈ (l.filter fun kv => kv.1 != pid).map Prod.fst) ↔
      (p ≠ pid ∧ p ∈ l.map Prod.fst) := by
  constructor
  · intro h
    rcases List.mem_map.mp h with ⟨kv, hkv, rfl⟩
    rcases List.mem_filter.mp hkv with ⟨hm, hne⟩
    exact ⟨bne_iff_ne.mp hne, List.mem_map.mpr ⟨kv, hm, rfl⟩⟩
  · rintro ⟨hne, h⟩
    rcases List.mem_map.mp h with ⟨kv, hkv, rfl⟩
    exact List.mem_map.mpr ⟨kv, List.mem_filter.mpr ⟨hkv, bne_iff_ne.mpr hne⟩, rfl⟩

/-- Key-set membership after one processed signaling message (media
available), compared against the claim-side add/remove classification. -/
lemma mem_keys_stepSignal (localId : Nat) (fresh : Strm) (dOk : Bool)
    (s : CallState) (d : Signal) (p : Nat) :
    (p ∈ pcsKeys (stepSignal localId fresh true dOk s d)) ↔
      (removesPeer localId d ≠ some p ∧
        (addsPeer localId d = some p ∨ p ∈ pcsKeys s)) := by
  rcases d with ⟨ty, fu, tu, uid, cand⟩
  cases fu with
  | none => simp [stepSignal, handleSignal, settle, addsPeer, removesPeer]
  | some q =>
    by_cases h0 : q = 0 ∨ q = localId
    · simp [stepSignal, handleSignal, settle, addsPeer, removesPeer, h0]
    · cases ty with
      | join =>
        rcases acquireIfNeeded_true_ok fresh s with ⟨s1, st, hacq, hpcs⟩
        cases hadd : addTracksLoop st.tracks (createPeerConnection s1 q true).2 with
        | error pcPartial =>
          simp only [stepSignal, handleSignal, if_neg h0, hacq, hadd, settle, pcsKeys,
            map_fst_setPc, addsPeer, removesPeer]
          rw [mem_map_fst_create, hpcs]
          constructor
          · intro h
            refine ⟨by simp, ?_⟩
            rcases h with rfl | h
            · exact Or.inl rfl
            · exact Or.inr h
          · rintro ⟨-, h⟩
            rcases h with h | h
            · exact Or.inl (Option.some.injEq .. ▸ h).symm
            · exact Or.inr h
        | ok pc1 =>
          simp only [stepSignal, handleSignal, if_neg h0, hacq, hadd, settle, pcsKeys,
            map_fst_setPc, addsPeer, removesPeer]
          rw [mem_map_fst_create, hpcs]
          constructor
          · intro h
            refine ⟨by simp, ?_⟩
            rcases h with rfl | h
            · exact Or.inl rfl
            · exact Or.inr h
          · rintro ⟨-, h⟩
            rcases h with h | h
            · exact Or.inl (Option.some.injEq .. ▸ h).symm
            · exact Or.inr h
      | offer =>
        by_cases ht : tu = some localId
        · rcases acquireIfNeeded_true_ok fresh (createPeerConnection s q false).1 with
            ⟨s1, st, hacq, hpcs⟩
          cases hadd : addTracksLoop st.tracks (createPeerConnection s q false).2 with
          | error pcPartial =>
            simp only [stepSignal, handleSignal, if_neg h0, if_pos ht, hacq, hadd,
              settle, pcsKeys, map_fst_setPc, addsPeer, removesPeer]
            rw [hpcs, mem_map_fst_create]
            constructor
            · intro h
              refine ⟨by simp, ?_⟩
              rcases h with rfl | h
              · exact Or.inl rfl
              · exact Or.inr h
            · rintro ⟨-, h⟩
              rcases h with h | h
              · exact Or.inl (Option.some.injEq .. ▸ h).symm
              · exact Or.inr h
          | ok pc1 =>
            by_cases hd : dOk
            · simp only [stepSignal, handleSignal, if_neg h0, if_pos ht, hacq, hadd,
                if_pos hd, settle, pcsKeys, map_fst_setPc, addsPeer, removesPeer]
              rw [hpcs, mem_map_fst_create]
              constructor
              · intro h
                refine ⟨by simp, ?_⟩
                rcases h with rfl | h
                · exact Or.inl rfl
                · exact Or.inr h
              · rintro ⟨-, h⟩
                rcases h with h | h
                · exact Or.inl (Option.some.injEq .. ▸ h).symm
                · exact Or.inr h
            · simp only [stepSignal, handleSignal, if_neg h0, if_pos ht, hacq, hadd,
                if_neg hd, settle, pcsKeys, map_fst_setPc, addsPeer, removesPeer]
              rw [hpcs, mem_map_fst_create]
              constructor
              · intro h
                refine ⟨by simp, ?_⟩
                rcases h with rfl | h
                · exact Or.inl rfl
                · exact Or.inr h
              · rintro ⟨-, h⟩
                rcases h with h | h
                · exact Or.inl (Option.some.injEq .. ▸ h).symm
                · exact Or.inr h
        · simp [stepSignal, handleSignal, settle, addsPeer, removesPeer, h0, ht]
      | answer =>
        by_cases ht : tu = some localId
        · cases hlk : s.pcs.lookup q with
          | some pc =>
            by_cases hd : dOk
            · simp [stepSignal, handleSignal, settle, addsPeer, removesPeer,
                h0, ht, hlk, hd, pcsKeys, map_fst_setPc]
            · simp [stepSignal, handleSignal, settle, addsPeer, removesPeer,
                h0, ht, hlk, hd, pcsKeys]
          | none =>
            simp [stepSignal, handleSignal, settle, addsPeer, removesPeer,
              h0, ht, hlk, pcsKeys]
        · simp [stepSignal, handleSignal, settle, addsPeer, removesPeer, h0, ht]
      | ice =>
        cases cand with
        | some c =>
          by_cases ht : tu = some localId
          · cases hlk : s.pcs.lookup q with
            | some pc =>
              by_cases hd : dOk
              · simp [stepSignal, handleSignal, settle, addsPeer, removesPeer,
                  h0, ht, hlk, hd, pcsKeys, map_fst_setPc]
              · simp [stepSignal, handleSignal, settle, addsPeer, removesPeer,
                  h0, ht, hlk, hd, pcsKeys]
            | none =>
              simp [stepSignal, handleSignal, settle, addsPeer, removesPeer,
                h0, ht, hlk, pcsKeys]
          · simp [stepSignal, handleSignal, settle, addsPeer, removesPeer, h0, ht]
        | none => simp [stepSignal, handleSignal, settle, addsPeer, removesPeer, h0]
      | left =>
        cases uid with
        | some pid =>
          cases hlk : s.pcs.lookup pid with
          | some pc =>
            simp only [stepSignal, handleSignal, if_neg h0, hlk, settle, pcsKeys,
              addsPeer, removesPeer]
            rw [mem_map_fst_filter_ne]
            constructor
            · rintro ⟨hne, hm⟩
              exact ⟨by simpa using fun hcon => hne hcon.symm, Or.inr hm⟩
            · rintro ⟨hne, hm⟩
              rcases hm with hm | hm
              · cases hm
              · exact ⟨fun hcon => hne (by rw [hcon]; simp), hm⟩
          | none =>
            simp only [stepSignal, handleSignal, if_neg h0, hlk, settle, pcsKeys,
              addsPeer, removesPeer]
            constructor
            · intro hm
              refine ⟨?_, Or.inr hm⟩
              intro hcon
              rcases Option.some.injEq .. ▸ hcon with rfl
              exact lookup_none_not_mem _ _ hlk hm
            · rintro ⟨-, hm⟩
              rcases hm with hm | hm
              · cases hm
              · exact hm
        | none =>
          simp [stepSignal, handleSignal, settle, addsPeer, removesPeer, h0]

/-- Fold form of the C2 membership argument: processing messages keeps
the key set in lockstep with the claim-side add/remove scan. -/
lemma claimMember_runSignals (localId p : Nat) (fresh : Strm) (dOk : Bool)
    (msgs : List Signal) :
    ∀ (s : CallState) (b : Bool), ((p ∈ pcsKeys s) ↔ b = true) →
      ((p ∈ pcsKeys (runSignals localId fresh true dOk s msgs)) ↔
        (msgs.foldl
          (fun b d =>
            if removesPeer localId d = some p then false
            else if addsPeer localId d = some p then true
            else b) b) = true) := by
  induction msgs with
  | nil =>
    intro s b h
    exact h
  | cons d rest ih =>
    intro s b h
    have hstep := mem_keys_stepSignal localId fresh dOk s d p
    have hrun : runSignals localId fresh true dOk s (d :: rest) =
        runSignals localId fresh true dOk (stepSignal localId fresh true dOk s d) rest := rfl
    rw [hrun, List.foldl_cons]
    apply ih
    by_cases hrem : removesPeer localId d = some p
    · rw [if_pos hrem]
      rw [hrem] at hstep
      simp only [ne_eq, not_true_eq_false, false_and] at hstep
      simp [hstep]
    · rw [if_neg hrem]
      by_cases hadd : addsPeer localId d = some p
      · rw [if_pos hadd]
        rw [hstep]
        simp [hrem, hadd]
      · rw [if_neg hadd]
        rw [hstep, h]
        simp [hrem, hadd]

/-- C2 counterexample: the claim as stated is false. Participant 2 sends
a single `Answer` addressed to the local participant — a non-`Left`
message with no subsequent `Left` — yet the resulting peer connection
map is empty (an answer for an unknown session is discarded and creates
nothing). -/
theorem c2_answer_only_peer_not_in_map_cex :
    pcsKeys (runSignals 1 sampleStream true true init [answerSig 2 1]) = [] ∧
    specSentNonLeft 2 [answerSig 2 1] = true := by
  decide

/-- C2 (amended): after processing any finite sequence of signaling
messages (media available), the peer connection map contains exactly
those participants that sent some `Join`, or some `Offer` addressed to
the local participant (with a valid nonzero sender id different from the
local one), and were not afterwards named by the `user_id` of a
delivered `Left` message — `Answer` and `IceCandidate` messages never
create an entry, and removal is keyed by the `Left` payload, not its
sender. -/
theorem c2_peer_map_membership (localId p : Nat) (fresh : Strm) (dOk : Bool)
    (msgs : List Signal) :
    (p ∈ pcsKeys (runSignals localId fresh true dOk init msgs)) ↔
      claimMember localId p msgs = true := by
  have h := claimMember_runSignals localId p fresh dOk msgs init false
    (by simp [pcsKeys, init])
  rw [claimMember]
  exact h

/-- C3: in every execution of a call (any sequence of connectivity
changes, media results, signaling messages, user intents and transport
callbacks), the local `Join` announcement is sent exactly once if the
execution ever reaches a point where the signaling channel is connected
and local media has been acquired, and never otherwise — in particular
it is never sent before both conditions hold, and never more than once. -/
theorem c3_join_announced_exactly_once (localId : Nat) (evs : List Event) :
    joinCount (runEvents localId init evs).sent =
      (if everReady localId init evs then 1 else 0) := by
  have h := joinCount_runEvents localId evs init (fun _ => rfl)
  simpa [init, joinCount] using h

end VideoCallModel
